import Mathlib

/-!
Shallow embedding of the `duck` retail-analytics service
(`src/main.py`, `src/db.py`, `src/validation.py`, `src/services.py`).

Conventions of the embedding:
* SQL `NULL` is `Option.none`; machine doubles are modelled as `ℚ`,
  `HUGEINT` as `Int`, `DATE` as a day count (`Nat`).
* DuckDB tables are Lean lists kept in insertion order
  (`duck_store_staging`, `duck_store`, `validation_errors`).
* Division by zero in a SQL expression yields `NULL` in this model
  (the promotion `INSERT` divides by `quantity`; the report queries
  always guard with `NULLIF(quantity, 0)`).
-/

/-- SQL division `a / b` with NULL propagation; `b = 0` yields NULL
(mirrors `NULLIF(quantity, 0)` guards and NULL-on-zero division). -/
def optDiv (a : Option ℚ) (b : Option Int) : Option ℚ :=
  match a, b with
  | some x, some y => if y = 0 then none else some (x / (y : ℚ))
  | _, _ => none

/-- SQL subtraction with NULL propagation. -/
def optSub (a b : Option ℚ) : Option ℚ :=
  match a, b with
  | some x, some y => some (x - y)
  | _, _ => none

/-- One row of `duck_store_staging` (`init_query` in `src/db.py`).
`id` and `hash` are always generated by `ingest` before the staging
write, so they are not optional; the business columns are nullable.
The column `section` is called `sect` here (`section` is a Lean
keyword); `date_of_sale` is a day count, `none` = SQL NULL / NaT. -/
structure StagingRow where
  id : String
  hash : String
  store_name : Option String
  item_code : Option String
  item_barcode : Option String
  supplier : Option String
  description : Option String
  category : Option String
  department : Option String
  sub_department : Option String
  sect : Option String
  quantity : Option Int
  total_sales : Option ℚ
  rrp : Option ℚ
  date_of_sale : Option Nat
deriving DecidableEq

/-- One record of `validation_errors` (`data_validate` in
`src/validation.py`).  The generated surrogate `id`, the raw
`cell_value` and the substituted `message` text are not modelled:
no claim depends on them; `note` carries the violation kind. -/
structure ValidationError where
  row_id : String
  hash : String
  field_name : String
  note : String
deriving DecidableEq

/-- `required` check of a text field of `validation_schema`:
a NULL cell violates the constraint. -/
def requiredErr (r : StagingRow) (fname : String) (v : Option String) :
    List ValidationError :=
  match v with
  | none => [⟨r.id, r.hash, fname, "constraint-error"⟩]
  | some _ => []

/-- `required` and `minimum: 0` checks of a numeric field of
`validation_schema`. -/
def numErrs (r : StagingRow) (fname : String) (v : Option ℚ) :
    List ValidationError :=
  match v with
  | none => [⟨r.id, r.hash, fname, "constraint-error"⟩]
  | some x => if x < 0 then [⟨r.id, r.hash, fname, "constraint-error"⟩] else []

/-- All schema violations of one staged row, in the field order of
`validation_schema`.  `seen` holds the hashes of the rows validated
before this one: the `unique` constraint on `hash` flags every later
duplicate occurrence.  `id` and `hash` are always present (generated in
`ingest`), so their `required` checks never fire.  The `date_of_sale`
`maximum` constraint is written in the source as the uncalled method
`datetime.now(UTC).date` rather than a date value, so no comparison
against the current date takes place; it is modelled as inoperative
(only `required` remains). -/
def rowErrors (seen : List String) (r : StagingRow) : List ValidationError :=
  (if r.hash ∈ seen then [⟨r.id, r.hash, "hash", "unique-error"⟩] else [])
  ++ requiredErr r "store_name" r.store_name
  ++ requiredErr r "item_code" r.item_code
  ++ requiredErr r "item_barcode" r.item_barcode
  ++ requiredErr r "description" r.description
  ++ requiredErr r "category" r.category
  ++ requiredErr r "department" r.department
  ++ requiredErr r "sub_department" r.sub_department
  ++ requiredErr r "section" r.sect
  ++ numErrs r "quantity" (r.quantity.map (fun n => (n : ℚ)))
  ++ numErrs r "total_sales" r.total_sales
  ++ numErrs r "rrp" r.rrp
  ++ requiredErr r "supplier" r.supplier
  ++ (match r.date_of_sale with
      | none => [⟨r.id, r.hash, "date_of_sale", "constraint-error"⟩]
      | some _ => [])

/-- Error records of a whole table, row by row, threading the set of
previously seen hashes for the `unique` constraint. -/
def tableErrors : List String → List StagingRow → List ValidationError
  | _, [] => []
  | seen, r :: rest => rowErrors seen r ++ tableErrors (r.hash :: seen) rest

/-- `data_validate` (`src/validation.py`): returns the id list and the
error records.  The source appends one id per error record
(`ids.append(row_loc)` inside the per-error loop), so `ids` has one
entry per violation, with repetitions for multi-violation rows. -/
def data_validate (rows : List StagingRow) :
    List String × List ValidationError :=
  let errs := tableErrors [] rows
  (errs.map (·.row_id), errs)

/-- One row of `duck_store` (`init_query` in `src/db.py`), the
analytic store; `hash` carries a UNIQUE constraint. -/
structure AnalyticRow where
  id : String
  hash : String
  store_name : Option String
  item_code : Option String
  item_barcode : Option String
  supplier : Option String
  description : Option String
  category : Option String
  department : Option String
  sub_department : Option String
  sect : Option String
  quantity : Option Int
  total_sales : Option ℚ
  rrp : Option ℚ
  sale_price : Option ℚ
  margin : Option ℚ
  date_of_sale : Option Nat
deriving DecidableEq

/-- The SELECT list of the promotion `INSERT` in `ingest`
(`src/main.py` lines 85-106): copy the staged columns and derive
`sale_price = total_sales/quantity`, `margin = total_sales/quantity - rrp`. -/
def toAnalytic (r : StagingRow) : AnalyticRow :=
  { id := r.id, hash := r.hash, store_name := r.store_name,
    item_code := r.item_code, item_barcode := r.item_barcode,
    supplier := r.supplier, description := r.description,
    category := r.category, department := r.department,
    sub_department := r.sub_department, sect := r.sect,
    quantity := r.quantity, total_sales := r.total_sales, rrp := r.rrp,
    sale_price := optDiv r.total_sales r.quantity,
    margin := optSub (optDiv r.total_sales r.quantity) r.rrp,
    date_of_sale := r.date_of_sale }

/-- The UNIQUE constraint on `duck_store.hash`: the promotion INSERT
succeeds, atomically, iff no inserted hash duplicates an existing
store hash or another inserted hash; otherwise the whole statement is
aborted and the store is unchanged. -/
def insertUnique (store newRows : List AnalyticRow) :
    Option (List AnalyticRow) :=
  if (newRows.map (·.hash)).Nodup ∧
      ∀ h ∈ newRows.map (·.hash), h ∉ store.map (·.hash) then
    some (store ++ newRows)
  else none

/-- The three persisted tables of the service. -/
structure DB where
  staging : List StagingRow
  store : List AnalyticRow
  errors : List ValidationError
deriving DecidableEq

def emptyDB : DB := ⟨[], [], []⟩

/-- `DataIngestionResponse` (`src/schemas.py`); `rows_ingested` is
computed as `df.shape[0] - len(ids)` on Python ints, hence `Int`. -/
structure IngestResponse where
  rows_for_review : Nat
  rows_received : Nat
  rows_ingested : Int
  message : String
deriving DecidableEq

/-- The `ingest` endpoint (`src/main.py`):
1. append the batch to `duck_store_staging`;
2. `process_validation` (`src/db.py`): re-read and validate the ENTIRE
   staging table, append all error records to `validation_errors`,
   return the invalid-id list;
3. if the id list is non-empty, INSERT into `duck_store` every staging
   row whose id is not in the list, with derived columns; a UNIQUE-hash
   violation aborts that statement and the generic handler turns it
   into a fatal "Ingestion failed" error (staging and error writes,
   already auto-committed, persist);
4. otherwise (no ids) the INSERT is skipped entirely;
5. on success respond with `len(ids)` rows for review, the batch size
   received, and their difference ingested. -/
def ingest (db : DB) (batch : List StagingRow) :
    DB × Except String IngestResponse :=
  let staged := db.staging ++ batch
  let v := data_validate staged
  let ids := v.1
  let db1 : DB := ⟨staged, db.store, db.errors ++ v.2⟩
  if ids.isEmpty then
    (db1, .ok ⟨ids.length, batch.length, (batch.length : Int) - ids.length,
               "Successful ingestion"⟩)
  else
    match insertUnique db.store
        ((staged.filter (fun r => r.id ∉ ids)).map toAnalytic) with
    | some store1 =>
        (⟨staged, store1, db1.errors⟩,
         .ok ⟨ids.length, batch.length, (batch.length : Int) - ids.length,
              "Successful ingestion"⟩)
    | none => (db1, .error "Ingestion failed")

/-- A fully valid staged row: the scenario row with `quantity = 10`,
`total_sales = 100`, `rrp = 8`. -/
def vRow : StagingRow :=
  ⟨"id-v", "hash-v", some "StoreA", some "IC1", some "BC1", some "SupA",
   some "DescA", some "CatA", some "DepA", some "SubA", some "SecA",
   some 10, some 100, some 8, some 20000⟩

/-!  ## Report engine (`src/services.py`)  -/

/-- Unit prices `total_sales / NULLIF(quantity, 0)` of a row group,
NULL results dropped (SQL aggregates ignore NULL). -/
def unitPrices (rows : List StagingRow) : List ℚ :=
  rows.filterMap (fun r => optDiv r.total_sales r.quantity)

/-- SQL `AVG` over the non-NULL values of a group. -/
def avgQ (xs : List ℚ) : ℚ := xs.sum / (xs.length : ℚ)

/-- SQL `STDDEV` squared: the sample variance `Σ (x - μ)² / (n - 1)`. -/
def svarQ (xs : List ℚ) : ℚ :=
  ((xs.map (fun x => (x - avgQ xs) ^ 2)).sum) / ((xs.length : ℚ) - 1)

/-- The HAVING conjunct `price_volatility > avg_unit_price * 2` of the
store query, in ℚ.  `STDDEV` is NULL for fewer than two values (the
comparison is then not satisfied); `STDDEV = √svar ≥ 0`, so for a
negative mean the strict inequality always holds and for a nonnegative
mean it is equivalent to `svar > (2·avg)²`, which avoids square roots. -/
def volatilityHigh (xs : List ℚ) : Prop :=
  2 ≤ xs.length ∧ (avgQ xs < 0 ∨ (0 ≤ avgQ xs ∧ 4 * avgQ xs ^ 2 < svarQ xs))

instance (xs : List ℚ) : Decidable (volatilityHigh xs) := by
  unfold volatilityHigh; infer_instance

/-- `quantity IS NULL OR total_sales IS NULL` (the `null_sales` count). -/
def nullSale (r : StagingRow) : Bool := r.quantity.isNone || r.total_sales.isNone

/-- `quantity = 0 OR total_sales = 0` (the `zero_sales` count). -/
def zeroSale (r : StagingRow) : Bool :=
  decide (r.quantity = some 0) || decide (r.total_sales = some 0)

/-- `quantity < 0 OR total_sales < 0` (the `negative_values` count). -/
def negSale (r : StagingRow) : Bool :=
  (match r.quantity with | some q => decide (q < 0) | none => false)
  || (match r.total_sales with | some t => decide (t < 0) | none => false)

/-- The HAVING clause of the store query of `quality_report`:
`zero_sales > total_transactions * 0.1 OR negative_values > 0
OR price_volatility > avg_unit_price * 2`. -/
def storeHaving (g : List StagingRow) : Prop :=
  (g.length : ℚ) * (1 / 10) < (g.countP zeroSale : ℚ)
  ∨ 0 < g.countP negSale
  ∨ volatilityHigh (unitPrices g)

instance (g : List StagingRow) : Decidable (storeHaving g) := by
  unfold storeHaving; infer_instance

/-- The staging rows of one `GROUP BY store_name` group (SQL groups the
NULL store names together). -/
def storeRows (staging : List StagingRow) (name : Option String) :
    List StagingRow :=
  staging.filter (fun r => decide (r.store_name = name))

/-- The store names listed in `unreliable_stores` of `quality_report`:
the Python loop appends every row the store query returns, so
membership is exactly the HAVING clause of that query. -/
def unreliableStores (staging : List StagingRow) : List (Option String) :=
  ((staging.map (·.store_name)).dedup).filter
    (fun name => decide (storeHaving (storeRows staging name)))

/-- The store-unreliability condition in the words of the spec:
negative values exist, OR null rate > 20%, OR zero-sales rate > 20%,
OR price volatility > 2 × mean unit price.  Stated only to compare
with what the code computes. -/
def specStoreUnreliable (g : List StagingRow) : Prop :=
  0 < g.countP negSale
  ∨ (g.length : ℚ) * (1 / 5) < (g.countP nullSale : ℚ)
  ∨ (g.length : ℚ) * (1 / 5) < (g.countP zeroSale : ℚ)
  ∨ volatilityHigh (unitPrices g)

/-- SQL `LOWER` / Python `str.lower` (ASCII case mapping, which covers
every string these reports compare). -/
def lowerStr (s : String) : String := ⟨s.data.map Char.toLower⟩

/-- `CONTAINS(haystack, needle)`: substring containment. -/
def strContains (haystack needle : String) : Bool :=
  decide (needle.data <:+: haystack.data)

/-- DuckDB `ROUND(q, 2)`: half away from zero, to two decimals. -/
def sqlRound2 (q : ℚ) : ℚ :=
  (if 0 ≤ q then (⌊q * 100 + 1 / 2⌋ : ℚ) else -(⌊-(q * 100) + 1 / 2⌋ : ℚ)) / 100

/-- The WHERE clause of the `promotion_report` query:
`rrp IS NOT NULL AND sale_price IS NOT NULL AND
CONTAINS(LOWER(supplier), '{supplier}')` — note only the stored
supplier is lower-cased, the request argument is interpolated as-is. -/
def promoFilter (supplier : String) (store : List AnalyticRow) :
    List AnalyticRow :=
  store.filter (fun r => r.rrp.isSome && r.sale_price.isSome &&
    (match r.supplier with
     | some s => strContains (lowerStr s) supplier
     | none => false))

/-- `GROUP BY description, section` keys of the filtered rows. -/
def promoKeys (supplier : String) (store : List AnalyticRow) :
    List (Option String × Option String) :=
  ((promoFilter supplier store).map (fun r => (r.description, r.sect))).dedup

/-- The rows of one (description, section) group. -/
def promoGroupRows (supplier : String) (store : List AnalyticRow)
    (k : Option String × Option String) : List AnalyticRow :=
  (promoFilter supplier store).filter
    (fun r => decide (r.description = k.1 ∧ r.sect = k.2))

/-- `sale_price <= rrp * 0.90` (the promo side of the split); both
fields are non-NULL on the filtered rows. -/
def isPromo (r : AnalyticRow) : Bool :=
  match r.sale_price, r.rrp with
  | some sp, some rp => decide (sp ≤ rp * (9 / 10))
  | _, _ => false

/-- `sale_price >= rrp * 0.90` (the baseline side; the two sides
overlap exactly at 90% of RRP). -/
def isBaseline (r : AnalyticRow) : Bool :=
  match r.sale_price, r.rrp with
  | some sp, some rp => decide (rp * (9 / 10) ≤ sp)
  | _, _ => false

/-- `SUM(CASE WHEN … THEN quantity ELSE 0 END)`; a NULL quantity is
ignored by SUM, i.e. contributes 0. -/
def caseSum (p : AnalyticRow → Bool) (g : List AnalyticRow) : Int :=
  (g.map (fun r => if p r then r.quantity.getD 0 else 0)).sum

/-- The HAVING clause `promo_units > 0 AND baseline_units > 0`. -/
def promoHaving (g : List AnalyticRow) : Prop :=
  0 < caseSum isPromo g ∧ 0 < caseSum isBaseline g

instance (g : List AnalyticRow) : Decidable (promoHaving g) := by
  unfold promoHaving; infer_instance

/-- The group keys the promotion query actually returns (its HAVING
applied); `promotion_report` raises the 204 no-data signal exactly
when this list is empty. -/
def promoResultKeys (supplier : String) (store : List AnalyticRow) :
    List (Option String × Option String) :=
  (promoKeys supplier store).filter
    (fun k => decide (promoHaving (promoGroupRows supplier store k)))

/-- One `PromoUplift` row (`src/schemas.py`). -/
structure PromoUplift where
  product_name : Option String
  sect : Option String
  promo_units : Int
  baseline_units : Int
  uplift_pct : ℚ
  total_promo_transactions : Nat
deriving DecidableEq

/-- The query row of one surviving group:
`uplift_pct = ROUND((promo - baseline) / NULLIF(baseline, 0) * 100, 2)`
(baseline is positive on surviving groups), and
`promo_transactions = COUNT(CASE WHEN promo THEN 1 END)`. -/
def mkUplift (g : List AnalyticRow) (k : Option String × Option String) :
    PromoUplift :=
  let promo := caseSum isPromo g
  let base := caseSum isBaseline g
  ⟨k.1, k.2, promo, base,
   sqlRound2 (((promo : ℚ) - (base : ℚ)) / (base : ℚ) * 100),
   g.countP isPromo⟩

/-- Insertion into a list sorted by descending `uplift_pct`
(`uplifts.sort(key=..., reverse=True)`). -/
def insertByUplift (x : PromoUplift) : List PromoUplift → List PromoUplift
  | [] => [x]
  | y :: ys =>
      if y.uplift_pct ≤ x.uplift_pct then x :: y :: ys
      else y :: insertByUplift x ys

def sortByUplift (l : List PromoUplift) : List PromoUplift :=
  l.foldr insertByUplift []

/-- `PromotionReport` (`src/schemas.py`); the summary aggregates are
presentation-only and no claim depends on them, so they are left out. -/
structure PromotionReport where
  top_performers : List PromoUplift
  poor_performers : List PromoUplift
deriving DecidableEq

/-- `promotion_report` (`src/services.py`): 204 no-data error when the
grouped query returns nothing; otherwise keep the groups that pass the
optional `min_uplift` threshold, sort by uplift descending, and return
the top 10 and the bottom 10 reversed. -/
def promotion_report (supplier : String) (min_uplift : Option ℚ)
    (store : List AnalyticRow) : Except String PromotionReport :=
  let keys := promoResultKeys supplier store
  if keys = [] then
    .error ("No data found for brand '" ++ supplier ++ "'")
  else
    let rows := keys.map (fun k => mkUplift (promoGroupRows supplier store k) k)
    let kept := rows.filter (fun u =>
      match min_uplift with
      | none => true
      | some m => decide (m ≤ u.uplift_pct))
    let sorted := sortByUplift kept
    .ok ⟨sorted.take 10, (sorted.drop (sorted.length - 10)).reverse⟩

/-- Unit prices of analytic rows (`total_sales / NULLIF(quantity, 0)`). -/
def unitPricesA (rows : List AnalyticRow) : List ℚ :=
  rows.filterMap (fun r => optDiv r.total_sales r.quantity)

/-- The `item_prices` CTE filter `quantity > 0 AND total_sales > 0`
(NULL comparisons are not satisfied). -/
def pricePos (r : AnalyticRow) : Bool :=
  (match r.quantity with | some q => decide (0 < q) | none => false)
  && (match r.total_sales with | some t => decide (0 < t) | none => false)

/-- One row of the `item_prices` CTE of `pricing_report`:
per (store, sub-department, section, supplier) group, the average unit
price (the `total_units` column is never read downstream). -/
structure ItemPrice where
  store_name : Option String
  sub_department : Option String
  sect : Option String
  supplier : Option String
  avg_unit_price : ℚ
deriving DecidableEq

/-- `GROUP BY store_name, sub_department, section, supplier` keys. -/
def priceKeys (store : List AnalyticRow) :
    List (Option String × Option String × Option String × Option String) :=
  (((store.filter pricePos).map
    (fun r => (r.store_name, r.sub_department, r.sect, r.supplier)))).dedup

/-- The `item_prices` CTE. -/
def itemPrices (store : List AnalyticRow) : List ItemPrice :=
  (priceKeys store).map (fun k =>
    ⟨k.1, k.2.1, k.2.2.1, k.2.2.2,
     avgQ (unitPricesA ((store.filter pricePos).filter
       (fun r => decide ((r.store_name, r.sub_department, r.sect, r.supplier) = k))))⟩)

/-- The `competitor_prices` CTE source rows:
`NOT CONTAINS(LOWER(supplier), 'bidco')` — the reference brand is the
fixed text 'bidco', not the request argument; a NULL supplier is
excluded (NULL condition). -/
def compRows (store : List AnalyticRow) : List ItemPrice :=
  (itemPrices store).filter (fun ip =>
    match ip.supplier with
    | some s => !(strContains (lowerStr s) "bidco")
    | none => false)

/-- `competitor_prices` group keys (store, sub-department, section). -/
def compKeys (store : List AnalyticRow) :
    List (Option String × Option String × Option String) :=
  ((compRows store).map (fun ip => (ip.store_name, ip.sub_department, ip.sect))).dedup

/-- `competitor_avg_price` of one segment. -/
def compAvg (store : List AnalyticRow)
    (k : Option String × Option String × Option String) : ℚ :=
  avgQ (((compRows store).filter
    (fun ip => decide ((ip.store_name, ip.sub_department, ip.sect) = k))).map
      (·.avg_unit_price))

/-- One `PriceIndex` row (`src/schemas.py`), with the market position
the Python loop attaches (`< 90` discount, `> 105` premium, otherwise
market). -/
structure PriceIndexRow where
  supplier : Option String
  store_name : Option String
  sub_department : Option String
  sect : Option String
  supplier_avg_price : ℚ
  competitor_avg_price : ℚ
  price_index : ℚ
  market_position : String
deriving DecidableEq

/-- The final SELECT of `pricing_report`: target rows are the
`item_prices` rows with `CONTAINS(LOWER(supplier), 'bidco')` whose
segment has a competitor average (the LEFT JOIN plus
`cp.competitor_avg_price IS NOT NULL` acts as an inner join);
`price_index = ROUND(avg/NULLIF(comp, 0) * 100, 2)` — competitor
averages are averages of positive unit prices, so the NULLIF guard
never fires on reachable stores and plain ℚ division is used here. -/
def pricingRows (store : List AnalyticRow) : List PriceIndexRow :=
  ((itemPrices store).filter (fun ip =>
    (match ip.supplier with
     | some s => strContains (lowerStr s) "bidco"
     | none => false)
    && decide ((ip.store_name, ip.sub_department, ip.sect) ∈ compKeys store))).map
    (fun ip =>
      let comp := compAvg store (ip.store_name, ip.sub_department, ip.sect)
      let idx := sqlRound2 (ip.avg_unit_price / comp * 100)
      ⟨ip.supplier, ip.store_name, ip.sub_department, ip.sect,
       sqlRound2 ip.avg_unit_price, sqlRound2 comp, idx,
       if idx < 90 then "discount" else if 105 < idx then "premium" else "market"⟩)

/-- `ORDER BY price_index DESC` (insertion sort). -/
def insertByIndex (x : PriceIndexRow) : List PriceIndexRow → List PriceIndexRow
  | [] => [x]
  | y :: ys =>
      if y.price_index ≤ x.price_index then x :: y :: ys
      else y :: insertByIndex x ys

def sortByIndex (l : List PriceIndexRow) : List PriceIndexRow :=
  l.foldr insertByIndex []

/-- `PricingReport` (`src/schemas.py`) with its summary fields.
`summary_supplier` is what the source's `summary["supplier"]` holds:
the Python loop variable `supplier` shadows the request argument, so
after a non-empty loop it is the LAST returned row's supplier — a
value from the data, not the argument. -/
structure PricingReport where
  supplier_pricing : List PriceIndexRow
  summary_supplier : Option String
  total_store_segments : Nat
  average_price_index : ℚ
  premium_positions : Nat
  market_positions : Nat
  discount_positions : Nat
  price_competitiveness : String
deriving DecidableEq

/-- `pricing_report` (`src/services.py`): 204 no-data error when the
query returns nothing (the message is the only place the request
argument is used); otherwise classify and summarise.  Python's
`round(x, 2)` is modelled by `sqlRound2`; no claim depends on rounding
tie behaviour. -/
def pricing_report (supplier : String) (store : List AnalyticRow) :
    Except String PricingReport :=
  let rows := sortByIndex (pricingRows store)
  if rows = [] then
    .error ("No data found for brand '" ++ supplier ++ "'")
  else
    let avgIdx := (rows.map (·.price_index)).sum / (rows.length : ℚ)
    .ok
      { supplier_pricing := rows
        summary_supplier :=
          match rows.getLast? with
          | some r => r.supplier
          | none => none
        total_store_segments := rows.length
        average_price_index := sqlRound2 avgIdx
        premium_positions := rows.countP (fun p => p.market_position == "premium")
        market_positions := rows.countP (fun p => p.market_position == "market")
        discount_positions := rows.countP (fun p => p.market_position == "discount")
        price_competitiveness :=
          if 90 ≤ avgIdx ∧ avgIdx ≤ 105 then "competitive"
          else if 105 < avgIdx then "premium" else "discount" }

/-!  ## Hasher/Identity (`src/main.py` lines 51-56)

`ingest` fingerprints each raw row as
`sha256(str(tuple(row.values)).encode("utf-8")).hexdigest()`.
The serialisation `str(tuple(...))` — Python's repr of the value
tuple — is modelled character-exactly below over the value universe a
parsed CSV row holds (strings, ints, floats, `Timestamp`s, `nan/NaT`),
and proved injective on single-field differences; the SHA-256 digest
itself is kept abstract (a parameter), since "the hashes differ" is
meaningful only up to hash collisions, i.e. as distinctness of the
hashed serialisations. -/

/-- Decimal digit characters. -/
def digCh (d : Nat) : Char :=
  if d = 0 then '0' else if d = 1 then '1' else if d = 2 then '2'
  else if d = 3 then '3' else if d = 4 then '4' else if d = 5 then '5'
  else if d = 6 then '6' else if d = 7 then '7' else if d = 8 then '8'
  else '9'

/-- Digit value of a character; 10 for non-digits. -/
def digVal (c : Char) : Nat :=
  if c = '0' then 0 else if c = '1' then 1 else if c = '2' then 2
  else if c = '3' then 3 else if c = '4' then 4 else if c = '5' then 5
  else if c = '6' then 6 else if c = '7' then 7 else if c = '8' then 8
  else if c = '9' then 9 else 10

/-- Decimal digits of a natural number, most significant first
(Python's `str` on a nonnegative int). -/
def natDigs (n : Nat) : List Char :=
  if h : n < 10 then [digCh n]
  else natDigs (n / 10) ++ [digCh (n % 10)]
decreasing_by exact Nat.div_lt_self (by omega) (by omega)

/-- Decimal decoding used to invert `natDigs`. -/
def listParse (acc : Nat) : List Char → Nat
  | [] => acc
  | c :: cs => listParse (10 * acc + digVal c) cs

/-- Python's `str` of an int: optional minus sign, then the digits. -/
def intRepr (n : Int) : List Char :=
  if n < 0 then '-' :: natDigs n.natAbs else natDigs n.toNat

/-- Zero-padded fixed-width decimal (`Timestamp` components). -/
def padDigs (w n : Nat) : List Char :=
  List.replicate (w - (natDigs n).length) '0' ++ natDigs n

/-- `repr` of a midnight `pandas.Timestamp` (what `parse_dates` yields
for the `Date Of Sale` column): `Timestamp('YYYY-MM-DD 00:00:00')`. -/
def tsRepr (y m d : Nat) : List Char :=
  "Timestamp('".data ++ padDigs 4 y ++ "-".data ++ padDigs 2 m
    ++ "-".data ++ padDigs 2 d ++ " 00:00:00')".data

/-- Python repr escapes inside a string quoted with `q`: backslash,
newline, carriage return, tab and the quote character itself get a
backslash escape (CPython also hex-escapes other non-printables; those
escapes likewise begin with a backslash, which is all the injectivity
argument uses, and are not modelled). -/
def escChar (q c : Char) : List Char :=
  if c = '\\' then ['\\', '\\']
  else if c = '\n' then ['\\', 'n']
  else if c = '\r' then ['\\', 'r']
  else if c = '\t' then ['\\', 't']
  else if c = q then ['\\', q]
  else [c]

def escape (q : Char) : List Char → List Char
  | [] => []
  | c :: cs => escChar q c ++ escape q cs

/-- CPython's quote selection for `repr` of a string: a single quote,
unless the string contains a single quote and no double quote. -/
def pyQuote (s : List Char) : Char :=
  if s.contains '\'' && !(s.contains '"') then '"' else '\''

/-- Python's `repr` of a string value. -/
def pyStrRepr (s : String) : List Char :=
  pyQuote s.data :: (escape (pyQuote s.data) s.data ++ [pyQuote s.data])

/-- One raw cell value of a parsed CSV row, as `pd.read_csv` with
`parse_dates=["Date Of Sale"]` produces it: a string, an int, a float,
a `Timestamp`, or a missing value (`nan`, printed like a float; `NaT`
on the parsed date column).  A float is modelled BY its `repr` string:
CPython's float repr (the shortest round-tripping decimal) is a
bijection between float values and their reprs, so carrying the repr
is a faithful identity for the value. -/
inductive PyValue where
  | pstr (s : String)
  | pint (n : Int)
  | pfloat (r : String)
  | pts (y m d : Nat)
  | pNaT
deriving DecidableEq

/-- Python `repr` of one cell value, as it appears inside
`str(tuple(row.values))`. -/
def pyRepr : PyValue → List Char
  | .pstr s => pyStrRepr s
  | .pint n => intRepr n
  | .pfloat r => r.data
  | .pts y m d => tsRepr y m d
  | .pNaT => "NaT".data

/-- Well-formedness of a modelled value: a float's carried repr really
is a CPython float repr — it starts with a digit, `-`, `n`(an) or
`i`(nf), and contains a character no int repr contains (every CPython
float repr contains `.`, `e`, `n` or `f`); `Timestamp` components are
in their calendar/4-digit ranges. -/
def wfValue : PyValue → Prop
  | .pfloat r =>
      (∃ c cs, r.data = c :: cs ∧ (digVal c < 10 ∨ c = '-' ∨ c = 'n' ∨ c = 'i'))
      ∧ (∃ c, c ∈ r.data ∧ 10 ≤ digVal c ∧ c ≠ '-')
  | .pts y m d => y < 10000 ∧ m < 100 ∧ d < 100
  | _ => True

/-- Python's repr of the value tuple: `str(())` is `"()"`, a 1-tuple
carries a trailing comma, longer tuples separate elements by `", "`. -/
def joinComma : List (List Char) → List Char
  | [] => []
  | [x] => x
  | x :: xs => x ++ (',' :: ' ' :: joinComma xs)

def hashInput (row : List PyValue) : List Char :=
  match row with
  | [x] => '(' :: (pyRepr x ++ [',', ')'])
  | xs => '(' :: (joinComma (xs.map pyRepr) ++ [')'])

/-- The content hash of `ingest`: an abstract digest (standing for
SHA-256) applied to the serialised tuple. -/
def contentHash (digest : List Char → String) (row : List PyValue) : String :=
  digest (hashInput row)

/-!  ## Concrete rows used by the scenario evaluations  -/

/-- A staged row missing only `description` (the §8 scenario). -/
def bRowDesc : StagingRow :=
  ⟨"id-b", "hash-b", some "StoreA", some "IC2", some "BC2", some "SupA",
   none, some "CatA", some "DepA", some "SubA", some "SecA",
   some 5, some 50, some 4, some 20000⟩

/-- A staged row missing `description` AND `category`. -/
def bRow2 : StagingRow :=
  ⟨"id-b2", "hash-b2", some "StoreA", some "IC3", some "BC3", some "SupA",
   none, none, some "DepA", some "SubA", some "SecA",
   some 5, some 50, some 4, some 20000⟩

/-- An invalid staged row (missing `store_name`). -/
def xRow : StagingRow :=
  ⟨"id-x", "hash-x", none, some "IC4", some "BC4", some "SupA",
   some "DescX", some "CatA", some "DepA", some "SubA", some "SecA",
   some 1, some 1, some 1, some 20000⟩

/-- Another invalid staged row (missing `store_name`). -/
def cRow : StagingRow :=
  ⟨"id-c", "hash-c", none, some "IC5", some "BC5", some "SupA",
   some "DescC", some "CatA", some "DepA", some "SubA", some "SecA",
   some 1, some 1, some 1, some 20000⟩

/-- A fully valid staged row dated strictly after the "current" day `d`. -/
def futRow (d : Nat) : StagingRow :=
  { vRow with id := "id-f", hash := "hash-f", date_of_sale := some (d + 1) }

/-- A quality-report row for store "S": unit price 1. -/
def qRowA : StagingRow :=
  ⟨"id-q", "hash-q", some "S", none, none, none, none, none, none, none,
   none, some 1, some 1, some 1, some 1⟩

/-- Same store, a zero-sales transaction. -/
def qRowZ : StagingRow := { qRowA with total_sales := some 0 }

/-- Store "S" staging data: 6 unit-price-1 sales and 1 zero sale —
zero rate 1/7 ≈ 14.3% (above the query's 10%, below the spec's 20%),
no nulls, no negatives, volatility far below twice the mean. -/
def qStag : List StagingRow := [qRowA, qRowA, qRowA, qRowA, qRowA, qRowA, qRowZ]

/-- A single clean transaction for store "T". -/
def cleanStag : List StagingRow := [{ qRowA with store_name := some "T" }]

/-- An analytic row of supplier "Bidco" priced exactly at 90% of RRP
(counts as both promo and baseline). -/
def pRowAn : AnalyticRow :=
  ⟨"id-p", "hash-p", some "St", none, none, some "Bidco", some "Prod",
   none, none, none, some "Sec", some 5, some 45, some 10, some 9,
   some (-1), some 1⟩

/-- Case-insensitive substring match of the request's supplier text
against a row's supplier, as the spec words it ("case-insensitive
substring match").  Stated only to compare with the code's filter. -/
def ciContains (stored : Option String) (arg : String) : Bool :=
  match stored with
  | some s => strContains (lowerStr s) (lowerStr arg)
  | none => false

theorem digVal_digCh {d : Nat} (h : d < 10) : digVal (digCh d) = d := by
  interval_cases d <;> rfl

theorem digVal_digCh_lt (d : Nat) : digVal (digCh d) < 10 := by
  rcases Nat.lt_or_ge d 10 with h | h
  · rw [digVal_digCh h]; exact h
  · have h9 : digCh d = '9' := by
      unfold digCh
      split_ifs <;> first | rfl | omega
    rw [h9]; decide

theorem listParse_append (acc : Nat) (xs ys : List Char) :
    listParse acc (xs ++ ys) = listParse (listParse acc xs) ys := by
  induction xs generalizing acc with
  | nil => rfl
  | cons c cs ih => simp [listParse, ih]

theorem natDigs_ne_nil (n : Nat) : natDigs n ≠ [] := by
  unfold natDigs
  split <;> simp

theorem listParse_natDigs (n : Nat) : ∀ acc,
    listParse acc (natDigs n) = acc * 10 ^ (natDigs n).length + n := by
  induction n using Nat.strong_induction_on with
  | _ n ih =>
    intro acc
    unfold natDigs
    split
    · next h => simp [listParse, digVal_digCh h]; ring
    · next h =>
      have hd : n / 10 < n := Nat.div_lt_self (by omega) (by omega)
      rw [listParse_append, ih (n / 10) hd acc]
      simp [listParse, digVal_digCh (Nat.mod_lt n (by omega))]
      rw [pow_succ]
      have := Nat.div_add_mod n 10
      ring_nf
      omega

theorem natDigs_inj {a b : Nat} (h : natDigs a = natDigs b) : a = b := by
  have ha := listParse_natDigs a 0
  have hb := listParse_natDigs b 0
  rw [h] at ha
  simpa [ha] using hb

theorem natDigs_digits {n : Nat} {c : Char} (hc : c ∈ natDigs n) :
    digVal c < 10 := by
  induction n using Nat.strong_induction_on with
  | _ n ih =>
    rw [natDigs] at hc
    split at hc
    · simp at hc; subst hc; exact digVal_digCh_lt _
    · next h =>
      rcases List.mem_append.mp hc with h1 | h1
      · exact ih (n / 10) (Nat.div_lt_self (by omega) (by omega)) h1
      · simp at h1; subst h1; exact digVal_digCh_lt _

theorem natDigs_head (n : Nat) :
    ∃ c cs, natDigs n = c :: cs ∧ digVal c < 10 := by
  rcases hn : natDigs n with _ | ⟨c, cs⟩
  · exact absurd hn (natDigs_ne_nil _)
  · exact ⟨c, cs, rfl, natDigs_digits (hn ▸ List.mem_cons_self c cs)⟩

theorem intRepr_chars {n : Int} {c : Char} (hc : c ∈ intRepr n) :
    digVal c < 10 ∨ c = '-' := by
  unfold intRepr at hc
  split at hc
  · rcases List.mem_cons.mp hc with h | h
    · right; exact h
    · left; exact natDigs_digits h
  · left; exact natDigs_digits hc

theorem intRepr_head (n : Int) :
    ∃ c cs, intRepr n = c :: cs ∧ (digVal c < 10 ∨ c = '-') := by
  unfold intRepr
  split
  · exact ⟨'-', _, rfl, Or.inr rfl⟩
  · obtain ⟨c, cs, hcs, hc⟩ := natDigs_head n.toNat
    exact ⟨c, cs, hcs, Or.inl hc⟩

theorem intRepr_inj {a b : Int} (h : intRepr a = intRepr b) : a = b := by
  unfold intRepr at h
  rcases Decidable.em (a < 0) with ha | ha <;>
      rcases Decidable.em (b < 0) with hb | hb <;>
      simp only [if_pos, if_neg, ha, hb] at h
  · have := natDigs_inj (List.cons.inj h).2
    omega
  · obtain ⟨c, cs, hcs, hc⟩ := natDigs_head b.toNat
    rw [hcs] at h
    have : ('-' : Char) = c := (List.cons.inj h).1
    rw [← this] at hc; simp [digVal] at hc
  · obtain ⟨c, cs, hcs, hc⟩ := natDigs_head a.toNat
    rw [hcs] at h
    have : c = '-' := (List.cons.inj h).1
    rw [this] at hc; simp [digVal] at hc
  · have := natDigs_inj h
    omega

theorem listParse_replicate_zero (j : Nat) :
    listParse 0 (List.replicate j '0') = 0 := by
  induction j with
  | zero => rfl
  | succ j ih => simpa [List.replicate_succ, listParse, digVal] using ih

theorem listParse_padDigs (w n : Nat) : listParse 0 (padDigs w n) = n := by
  unfold padDigs
  rw [listParse_append, listParse_replicate_zero]
  simpa using listParse_natDigs n 0

theorem padDigs_inj {w a b : Nat} (h : padDigs w a = padDigs w b) : a = b := by
  have ha := listParse_padDigs w a
  rw [h, listParse_padDigs] at ha
  omega

theorem natDigs_length_le {n w : Nat} (hw : 1 ≤ w) (h : n < 10 ^ w) :
    (natDigs n).length ≤ w := by
  induction w generalizing n with
  | zero => omega
  | succ w ih =>
    unfold natDigs
    split
    · simpa using hw
    · next hn =>
      have hw1 : 1 ≤ w := by
        rcases Nat.lt_or_ge w 1 with h1 | h1
        · interval_cases w; simp at h; omega
        · exact h1
      have : n / 10 < 10 ^ w := by
        rw [Nat.div_lt_iff_lt_mul (by omega)]
        calc n < 10 ^ (w + 1) := h
        _ = 10 ^ w * 10 := by rw [pow_succ]
      simpa using ih hw1 this

theorem padDigs_length {n w : Nat} (hw : 1 ≤ w) (h : n < 10 ^ w) :
    (padDigs w n).length = w := by
  have := natDigs_length_le hw h
  unfold padDigs
  simp only [List.length_append, List.length_replicate]
  omega

theorem escChar_ne_nil (q c : Char) : escChar q c ≠ [] := by
  unfold escChar
  split_ifs <;> simp

theorem escChar_inj_prefix {q a b : Char} (hq : q = '\'' ∨ q = '"')
    {x y : List Char} (h : escChar q a ++ x = escChar q b ++ y) :
    a = b ∧ x = y := by
  rcases hq with rfl | rfl <;>
  · unfold escChar at h
    split_ifs at h <;> simp_all <;> exact absurd h.1.symm (by assumption)

theorem escape_inj {q : Char} (hq : q = '\'' ∨ q = '"') :
    ∀ s t : List Char, escape q s = escape q t → s = t := by
  intro s
  induction s with
  | nil =>
    intro t ht
    cases t with
    | nil => rfl
    | cons b bs =>
      exfalso
      rcases hn : escChar q b with _ | ⟨c, cs⟩
      · exact escChar_ne_nil q b hn
      · simp only [escape, hn] at ht
        exact (List.cons_ne_nil c (cs ++ escape q bs)) ht.symm
  | cons a as ih =>
    intro t ht
    cases t with
    | nil =>
      exfalso
      rcases hn : escChar q a with _ | ⟨c, cs⟩
      · exact escChar_ne_nil q a hn
      · simp only [escape, hn] at ht
        exact (List.cons_ne_nil c (cs ++ escape q as)) ht
    | cons b bs =>
      have h2 : escChar q a ++ escape q as = escChar q b ++ escape q bs := ht
      obtain ⟨rfl, h3⟩ := escChar_inj_prefix hq h2
      rw [ih bs h3]

theorem pyQuote_cases (s : List Char) : pyQuote s = '\'' ∨ pyQuote s = '"' := by
  unfold pyQuote
  split <;> simp

theorem pyStrRepr_inj {s t : String} (h : pyStrRepr s = pyStrRepr t) :
    s = t := by
  unfold pyStrRepr at h
  have hq : pyQuote s.data = pyQuote t.data := (List.cons.inj h).1
  have h2 : escape (pyQuote s.data) s.data ++ [pyQuote s.data]
      = escape (pyQuote t.data) t.data ++ [pyQuote t.data] := (List.cons.inj h).2
  rw [← hq] at h2
  have h3 := List.append_cancel_right h2
  exact String.ext (escape_inj (pyQuote_cases s.data) _ _ h3)

theorem tsRepr_head (y m d : Nat) : ∃ cs, tsRepr y m d = 'T' :: cs :=
  ⟨_, rfl⟩

theorem tsRepr_inj {y m d y1 m1 d1 : Nat}
    (h1 : y < 10000 ∧ m < 100 ∧ d < 100)
    (h2 : y1 < 10000 ∧ m1 < 100 ∧ d1 < 100)
    (h : tsRepr y m d = tsRepr y1 m1 d1) :
    y = y1 ∧ m = m1 ∧ d = d1 := by
  unfold tsRepr at h
  simp only [List.append_assoc] at h
  have hy := List.append_cancel_left h
  have hy2 := List.append_inj hy
    ((padDigs_length (by omega) (by simpa using h1.1)).trans
     (padDigs_length (by omega) (by simpa using h2.1)).symm)
  refine ⟨padDigs_inj hy2.1, ?_⟩
  have hm := List.append_cancel_left hy2.2
  have hm2 := List.append_inj hm
    ((padDigs_length (by omega) (by simpa using h1.2.1)).trans
     (padDigs_length (by omega) (by simpa using h2.2.1)).symm)
  refine ⟨padDigs_inj hm2.1, ?_⟩
  have hd := List.append_cancel_left hm2.2
  have hd2 := List.append_inj hd
    ((padDigs_length (by omega) (by simpa using h1.2.2)).trans
     (padDigs_length (by omega) (by simpa using h2.2.2)).symm)
  exact padDigs_inj hd2.1

theorem quote_not_int_head {c : Char} (hq : c = '\'' ∨ c = '"') :
    ¬(digVal c < 10 ∨ c = '-') := by
  rcases hq with rfl | rfl <;> decide

theorem quote_not_float_head {c : Char} (hq : c = '\'' ∨ c = '"') :
    ¬(digVal c < 10 ∨ c = '-' ∨ c = 'n' ∨ c = 'i') := by
  rcases hq with rfl | rfl <;> decide

theorem pyRepr_inj {u v : PyValue} (hu : wfValue u) (hv : wfValue v)
    (h : pyRepr u = pyRepr v) : u = v := by
  cases u <;> cases v <;> simp only [pyRepr] at h
  case pstr.pstr => rw [pyStrRepr_inj h]
  case pstr.pint s n =>
    obtain ⟨c, cs, hcs, hc⟩ := intRepr_head n
    rw [hcs] at h
    have := (List.cons.inj h).1
    exact absurd (this ▸ hc) (quote_not_int_head (pyQuote_cases s.data))
  case pint.pstr n s =>
    obtain ⟨c, cs, hcs, hc⟩ := intRepr_head n
    rw [hcs] at h
    have := (List.cons.inj h).1
    exact absurd (this ▸ hc) (quote_not_int_head (pyQuote_cases s.data))
  case pstr.pfloat s r =>
    obtain ⟨⟨c, cs, hcs, hc⟩, -⟩ := hv
    rw [hcs] at h
    have := (List.cons.inj h).1
    exact absurd (this ▸ hc) (quote_not_float_head (pyQuote_cases s.data))
  case pfloat.pstr r s =>
    obtain ⟨⟨c, cs, hcs, hc⟩, -⟩ := hu
    rw [hcs] at h
    have := (List.cons.inj h).1
    exact absurd (this ▸ hc) (quote_not_float_head (pyQuote_cases s.data))
  case pstr.pts s y m d =>
    obtain ⟨cs, hcs⟩ := tsRepr_head y m d
    rw [hcs] at h
    have hT := (List.cons.inj h).1
    rcases pyQuote_cases s.data with hq | hq <;> rw [hq] at hT <;> simp at hT
  case pts.pstr y m d s =>
    obtain ⟨cs, hcs⟩ := tsRepr_head y m d
    rw [hcs] at h
    have hT := (List.cons.inj h).1
    rcases pyQuote_cases s.data with hq | hq <;> rw [hq] at hT <;> simp at hT
  case pstr.pNaT s =>
    have hT := (List.cons.inj h).1
    rcases pyQuote_cases s.data with hq | hq <;> rw [hq] at hT <;> simp at hT
  case pNaT.pstr s =>
    have hT := (List.cons.inj h).1
    rcases pyQuote_cases s.data with hq | hq <;> rw [hq] at hT <;> simp at hT
  case pint.pint a b => rw [intRepr_inj h]
  case pint.pfloat n r =>
    exfalso
    obtain ⟨-, c, hmem, hge, hne⟩ := hv
    rw [← h] at hmem
    rcases intRepr_chars hmem with hlt | hdash
    · omega
    · exact hne hdash
  case pfloat.pint r n =>
    exfalso
    obtain ⟨-, c, hmem, hge, hne⟩ := hu
    rw [h] at hmem
    rcases intRepr_chars hmem with hlt | hdash
    · omega
    · exact hne hdash
  case pint.pts n y m d =>
    obtain ⟨cs, hcs⟩ := tsRepr_head y m d
    obtain ⟨c, cs2, hcs2, hc⟩ := intRepr_head n
    rw [hcs, hcs2] at h
    have hT := (List.cons.inj h).1
    rw [hT] at hc
    exact absurd hc (by decide)
  case pts.pint y m d n =>
    obtain ⟨cs, hcs⟩ := tsRepr_head y m d
    obtain ⟨c, cs2, hcs2, hc⟩ := intRepr_head n
    rw [hcs, hcs2] at h
    have hT := (List.cons.inj h).1
    rw [← hT] at hc
    exact absurd hc (by decide)
  case pint.pNaT n =>
    obtain ⟨c, cs2, hcs2, hc⟩ := intRepr_head n
    rw [hcs2] at h
    have hT := (List.cons.inj h).1
    rw [hT] at hc
    exact absurd hc (by decide)
  case pNaT.pint n =>
    obtain ⟨c, cs2, hcs2, hc⟩ := intRepr_head n
    rw [hcs2] at h
    have hT := (List.cons.inj h).1
    rw [← hT] at hc
    exact absurd hc (by decide)
  case pfloat.pfloat r1 r2 => rw [String.ext h]
  case pfloat.pts r y m d =>
    obtain ⟨⟨c, cs, hcs, hc⟩, -⟩ := hu
    obtain ⟨cs2, hcs2⟩ := tsRepr_head y m d
    rw [hcs, hcs2] at h
    have hT := (List.cons.inj h).1
    rw [hT] at hc
    exact absurd hc (by decide)
  case pts.pfloat y m d r =>
    obtain ⟨⟨c, cs, hcs, hc⟩, -⟩ := hv
    obtain ⟨cs2, hcs2⟩ := tsRepr_head y m d
    rw [hcs, hcs2] at h
    have hT := (List.cons.inj h).1
    rw [← hT] at hc
    exact absurd hc (by decide)
  case pfloat.pNaT r =>
    obtain ⟨⟨c, cs, hcs, hc⟩, -⟩ := hu
    rw [hcs] at h
    have hT := (List.cons.inj h).1
    rw [hT] at hc
    exact absurd hc (by decide)
  case pNaT.pfloat r =>
    obtain ⟨⟨c, cs, hcs, hc⟩, -⟩ := hv
    rw [hcs] at h
    have hT := (List.cons.inj h).1
    rw [← hT] at hc
    exact absurd hc (by decide)
  case pts.pts y m d y1 m1 d1 =>
    obtain ⟨he1, he2, he3⟩ := tsRepr_inj hu hv h
    rw [he1, he2, he3]
  case pts.pNaT y m d =>
    obtain ⟨cs, hcs⟩ := tsRepr_head y m d
    rw [hcs] at h
    have hT := (List.cons.inj h).1
    simp at hT
  case pNaT.pts y m d =>
    obtain ⟨cs, hcs⟩ := tsRepr_head y m d
    rw [hcs] at h
    have hT := (List.cons.inj h).1
    simp at hT
  case pNaT.pNaT => rfl

theorem joinComma_cons (x : List Char) (l : List (List Char)) (hl : l ≠ []) :
    joinComma (x :: l) = x ++ (',' :: ' ' :: joinComma l) := by
  cases l with
  | nil => exact absurd rfl hl
  | cons y ys => rfl

theorem joinComma_cancel (m t : List (List Char)) (ra rb : List Char)
    (h : joinComma (m ++ ra :: t) = joinComma (m ++ rb :: t)) : ra = rb := by
  induction m with
  | nil =>
    cases t with
    | nil => exact h
    | cons u us =>
      simp only [List.nil_append] at h
      rw [joinComma_cons ra (u :: us) (by simp),
        joinComma_cons rb (u :: us) (by simp)] at h
      exact List.append_cancel_right h
  | cons x m ih =>
    simp only [List.cons_append] at h
    rw [joinComma_cons x (m ++ ra :: t) (by simp),
      joinComma_cons x (m ++ rb :: t) (by simp)] at h
    have h2 := List.append_cancel_left h
    exact ih (List.cons.inj (List.cons.inj h2).2).2

theorem hashInput_single (x : PyValue) :
    hashInput [x] = '(' :: (pyRepr x ++ [',', ')']) := rfl

theorem hashInput_many (xs : List PyValue) (hxs : xs.length ≠ 1) :
    hashInput xs = '(' :: (joinComma (xs.map pyRepr) ++ [')']) := by
  match xs with
  | [] => rfl
  | [x] => simp at hxs
  | x :: y :: rest => rfl

theorem hashInput_single_diff (p s : List PyValue) (a b : PyValue)
    (ha : wfValue a) (hb : wfValue b) (hab : a ≠ b) :
    hashInput (p ++ a :: s) ≠ hashInput (p ++ b :: s) := by
  intro h
  apply hab
  by_cases hlen : (p ++ a :: s).length = 1
  · have hp : p = [] ∧ s = [] := by cases p <;> simp_all
    obtain ⟨rfl, rfl⟩ := hp
    simp only [List.nil_append, hashInput_single] at h
    have h2 := (List.cons.inj h).2
    exact pyRepr_inj ha hb (List.append_cancel_right h2)
  · have hlen2 : (p ++ b :: s).length ≠ 1 := by simp_all
    rw [hashInput_many _ hlen, hashInput_many _ hlen2] at h
    have h2 := List.append_cancel_right (List.cons.inj h).2
    simp only [List.map_append, List.map_cons] at h2
    exact pyRepr_inj ha hb (joinComma_cancel _ _ _ _ h2)

/-!  ## Helper lemmas for the claim theorems  -/

theorem insertUnique_eq_some {s n out : List AnalyticRow}
    (h : insertUnique s n = some out) : out = s ++ n := by
  unfold insertUnique at h
  split at h
  · exact (Option.some.inj h).symm
  · exact absurd h (by simp)

theorem tableErrors_append (seen : List String) (xs ys : List StagingRow) :
    tableErrors seen (xs ++ ys) =
      tableErrors seen xs
        ++ tableErrors (xs.foldl (fun acc r => r.hash :: acc) seen) ys := by
  induction xs generalizing seen with
  | nil => rfl
  | cons x xs ih =>
    have hstep : tableErrors seen (x :: xs ++ ys)
        = rowErrors seen x ++ tableErrors (x.hash :: seen) (xs ++ ys) := rfl
    rw [hstep, ih]
    simp [tableErrors, List.foldl_cons, List.append_assoc]

theorem mem_foldl_hash (xs : List StagingRow) (seen : List String) (h : String)
    (hm : h ∈ seen ∨ h ∈ xs.map (·.hash)) :
    h ∈ xs.foldl (fun acc r => r.hash :: acc) seen := by
  induction xs generalizing seen with
  | nil => simpa using hm
  | cons x xs ih =>
    apply ih
    rcases hm with hs | hx
    · exact Or.inl (List.mem_cons_of_mem _ hs)
    · simp only [List.map_cons, List.mem_cons] at hx
      rcases hx with rfl | hx2
      · exact Or.inl (List.mem_cons_self _ _)
      · exact Or.inr hx2

theorem unique_err_mem (rows : List StagingRow) (seen : List String)
    (r : StagingRow) (hr : r ∈ rows) (hh : r.hash ∈ seen) :
    (⟨r.id, r.hash, "hash", "unique-error"⟩ : ValidationError)
      ∈ tableErrors seen rows := by
  induction rows generalizing seen with
  | nil => simp at hr
  | cons x xs ih =>
    rcases List.mem_cons.mp hr with rfl | hr2
    · apply List.mem_append_left
      unfold rowErrors
      rw [if_pos hh]
      exact List.mem_append_left _ (List.mem_cons_self _ _)
    · exact List.mem_append_right _
        (ih (x.hash :: seen) hr2 (List.mem_cons_of_mem _ hh))

/-- A row whose hash already occurs among earlier staging rows is
flagged by the validator's `unique` constraint: its id lands in the
invalid-id list. -/
theorem dup_id_mem_ids (pre post : List StagingRow) (r : StagingRow)
    (hr : r ∈ post) (hh : r.hash ∈ pre.map (·.hash)) :
    r.id ∈ (data_validate (pre ++ post)).1 := by
  unfold data_validate
  simp only
  rw [tableErrors_append]
  have hseen : r.hash ∈ pre.foldl (fun acc r => r.hash :: acc) [] :=
    mem_foldl_hash _ _ _ (Or.inr hh)
  have hmem := unique_err_mem post _ r hr hseen
  exact List.mem_map.mpr
    ⟨⟨r.id, r.hash, "hash", "unique-error"⟩,
     List.mem_append_right _ hmem, rfl⟩

/-!  ## Claim theorems  -/

/-- C1 (code evidence): a fully valid single-row request on a fresh
store produces NO validation errors, yet NO analytic row either — the
promotion INSERT is guarded by `if ids:` and is skipped entirely when
the invalid-id list is empty — while the response still reports one
row ingested.  This contradicts the claimed invariant that every
zero-error staged row is promoted exactly once (and contradicts the
code's own response). -/
theorem c1_valid_row_not_promoted :
    (data_validate [vRow]).2 = []
    ∧ (ingest emptyDB [vRow]).1.store = []
    ∧ (ingest emptyDB [vRow]).2 = .ok ⟨0, 1, 1, "Successful ingestion"⟩ := by
  refine ⟨?_, ?_, ?_⟩ <;>
    simp +decide [ingest, data_validate, tableErrors, rowErrors, requiredErr,
      numErrs, insertUnique, vRow, emptyDB]

/-- C3: every analytic row present after an ingestion either was
already in the store or was written by this promotion with
`sale_price = total_sales / quantity` and
`margin = sale_price - rrp` (exact in ℚ, hence within floating-point
tolerance). -/
theorem c3_derived_fields (db : DB) (batch : List StagingRow)
    (a : AnalyticRow) (ha : a ∈ (ingest db batch).1.store) :
    a ∈ db.store
    ∨ (a.sale_price = optDiv a.total_sales a.quantity
       ∧ a.margin = optSub a.sale_price a.rrp) := by
  unfold ingest at ha
  simp only at ha
  split at ha
  · exact Or.inl ha
  · split at ha
    · next store1 heq =>
      rw [insertUnique_eq_some heq] at ha
      rcases List.mem_append.mp ha with h1 | h2
      · exact Or.inl h1
      · right
        obtain ⟨r, hr, rfl⟩ := List.mem_map.mp h2
        exact ⟨rfl, rfl⟩
    · exact Or.inl ha

/-- Witness for C3 at the §8 scenario: the promoted copy of `vRow`. -/
theorem c3_derived_fields_witness :
    toAnalytic vRow ∈ (ingest emptyDB [vRow, bRowDesc]).1.store
    ∧ (toAnalytic vRow ∈ emptyDB.store
       ∨ ((toAnalytic vRow).sale_price
            = optDiv (toAnalytic vRow).total_sales (toAnalytic vRow).quantity
          ∧ (toAnalytic vRow).margin
            = optSub (toAnalytic vRow).sale_price (toAnalytic vRow).rrp)) := by
  have hm : toAnalytic vRow ∈ (ingest emptyDB [vRow, bRowDesc]).1.store := by
    simp +decide [ingest, data_validate, tableErrors, rowErrors, requiredErr,
      numErrs, insertUnique, vRow, bRowDesc, emptyDB]
  exact ⟨hm, c3_derived_fields emptyDB [vRow, bRowDesc] (toAnalytic vRow) hm⟩

/-- C4 counterexample: a fresh-store request with one valid row and one
row violating TWO rules (missing description and category) reports
`held_for_review = 2` and `ingested = 0`, though only ONE received row
has validation errors — the response counts error records, not rows. -/
theorem c4_per_record_counts :
    (ingest emptyDB [vRow, bRow2]).2 = .ok ⟨2, 2, 0, "Successful ingestion"⟩
    ∧ (((data_validate [vRow, bRow2]).2.map (·.row_id)).dedup).length = 1 := by
  constructor <;>
    simp +decide [ingest, data_validate, tableErrors, rowErrors, requiredErr,
      numErrs, insertUnique, vRow, bRow2, emptyDB]

/-- C4 as amended: `rows_received` is the batch size, `rows_for_review`
is the number of ValidationError RECORDS from validating the whole
staging table (a multi-violation row counts once per violation), and
`rows_ingested` is their difference; on a fresh store the §8 scenario
(one valid row, one missing description) yields received 2 /
ingested 1 / held 1, an analytic row with `sale_price = 10`,
`margin = 2`, and exactly one error record for `description`. -/
theorem c4_response_counts :
    (∀ (db : DB) (batch : List StagingRow),
      (ingest db batch).2 = .error "Ingestion failed"
      ∨ (ingest db batch).2 = .ok
          ⟨(data_validate (db.staging ++ batch)).2.length, batch.length,
           (batch.length : Int)
             - ((data_validate (db.staging ++ batch)).2.length : Int),
           "Successful ingestion"⟩)
    ∧ ((ingest emptyDB [vRow, bRowDesc]).2
          = .ok ⟨1, 2, 1, "Successful ingestion"⟩
       ∧ (ingest emptyDB [vRow, bRowDesc]).1.store.map
           (fun a => (a.hash, a.sale_price, a.margin))
           = [("hash-v", some 10, some 2)]
       ∧ (ingest emptyDB [vRow, bRowDesc]).1.errors
           = [⟨"id-b", "hash-b", "description", "constraint-error"⟩]) := by
  constructor
  · intro db batch
    have hlen : (data_validate (db.staging ++ batch)).1.length
        = (data_validate (db.staging ++ batch)).2.length := by
      simp [data_validate]
    unfold ingest
    simp only
    split
    · right; rw [← hlen]
    · split
      · right; rw [← hlen]
      · left; rfl
  · refine ⟨?_, ?_, ?_⟩
    · simp +decide [ingest, data_validate, tableErrors, rowErrors, requiredErr,
        numErrs, insertUnique, vRow, bRowDesc, emptyDB]
    · simp +decide [ingest, data_validate, tableErrors, rowErrors, requiredErr,
        numErrs, insertUnique, toAnalytic, vRow, bRowDesc, emptyDB]
      norm_num [optDiv, optSub]
    · simp +decide [ingest, data_validate, tableErrors, rowErrors, requiredErr,
        numErrs, insertUnique, vRow, bRowDesc, emptyDB]

/-- C7 (code evidence): for EVERY current day `d`, a fully valid row
dated `d + 1` (strictly in the future) passes validation with no error
at all — the schema's `maximum` constraint for `date_of_sale` is the
uncalled method `datetime.now(UTC).date`, not a date, so no
≤-current-date comparison exists. -/
theorem c7_future_date_passes (d : Nat) :
    (data_validate [futRow d]).2 = [] := by
  simp +decide [data_validate, tableErrors, rowErrors, requiredErr, numErrs,
    futRow, vRow]

/-- C10: the pricing report is independent of its supplier argument —
for any two arguments over the same store, the outcomes agree
(identical report on success); the argument only reaches the no-data
error message, because the target filter is the fixed text 'bidco'. -/
theorem c10_supplier_independent :
    ∀ (s1 s2 : String) (store : List AnalyticRow),
      (pricing_report s1 store).toOption = (pricing_report s2 store).toOption
      ∧ ((pricing_report s1 store)
           = .error ("No data found for brand '" ++ s1 ++ "'")
         ∨ (pricing_report s1 store).isOk = true) := by
  intro s1 s2 store
  unfold pricing_report
  simp only
  split
  · exact ⟨rfl, Or.inl rfl⟩
  · exact ⟨rfl, Or.inr rfl⟩

/-- C8: the content hash is a function of the serialised field tuple —
identical tuples give identical hashes for any digest — and two rows
that differ in exactly one (well-formed) field value serialise to
different byte strings, so their hashes differ up to digest
collisions. -/
theorem c8_hash_fingerprint :
    (∀ (digest : List Char → String) (xs ys : List PyValue),
      xs = ys → contentHash digest xs = contentHash digest ys)
    ∧ (∀ (p s : List PyValue) (a b : PyValue),
        wfValue a → wfValue b → a ≠ b →
        hashInput (p ++ a :: s) ≠ hashInput (p ++ b :: s)) :=
  ⟨fun digest xs ys h => by rw [h], hashInput_single_diff⟩

/-- Witness for C8: two concrete rows differing in one string field. -/
theorem c8_hash_fingerprint_witness :
    contentHash String.mk [.pint 1, .pstr "x"]
      = contentHash String.mk [.pint 1, .pstr "x"]
    ∧ hashInput [.pint 1, .pstr "x"] ≠ hashInput [.pint 1, .pstr "y"] :=
  ⟨c8_hash_fingerprint.1 String.mk _ _ rfl,
   c8_hash_fingerprint.2 [.pint 1] [] (.pstr "x") (.pstr "y")
     trivial trivial (by decide)⟩

/-- C2 counterexample: after a first request promotes `vRow`, a later
request whose batch is one (unrelated, invalid) row re-selects the
already promoted `vRow` for insertion, hits the `duck_store.hash`
UNIQUE constraint, and the generic handler reports a FATAL
"Ingestion failed" — not the claimed held-for-review / skipped
outcome.  The aborted insert leaves the one promoted row in place. -/
theorem c2_duplicate_promotion_fatal :
    (ingest (ingest emptyDB [vRow, xRow]).1 [cRow]).2
      = .error "Ingestion failed"
    ∧ (ingest (ingest emptyDB [vRow, xRow]).1 [cRow]).1.store.map (·.hash)
      = ["hash-v"] := by
  constructor <;>
    simp +decide [ingest, data_validate, tableErrors, rowErrors, requiredErr,
      numErrs, insertUnique, toAnalytic, vRow, xRow, cRow, emptyDB]

/-- C2 as amended: a store uniqueness violation during promotion is
NOT translated — the request fails (any non-ok outcome leaves the
analytic store untouched, so it still holds exactly one row per
previously promoted hash); what intercepts duplicate re-ingestion of
identical content instead is the validator's batch-wide hash `unique`
check over the whole staging table, which puts the duplicate copy's id
into the held-for-review id list. -/
theorem c2_store_conflict_handling :
    (∀ (db : DB) (batch : List StagingRow),
      (ingest db batch).2.isOk = true
      ∨ (ingest db batch).1.store = db.store)
    ∧ (∀ (pre post : List StagingRow) (r : StagingRow),
        r ∈ post → r.hash ∈ pre.map (·.hash) →
        r.id ∈ (data_validate (pre ++ post)).1) := by
  constructor
  · intro db batch
    unfold ingest
    simp only
    split
    · exact Or.inl rfl
    · split
      · exact Or.inl rfl
      · exact Or.inr rfl
  · exact dup_id_mem_ids

/-- Witness for C2: the counterexample state on the left; on the
right, a second staged copy of `vRow` (fresh id, same content hash) is
flagged into the invalid-id list. -/
theorem c2_store_conflict_handling_witness :
    ((ingest (ingest emptyDB [vRow, xRow]).1 [cRow]).2.isOk = true
     ∨ (ingest (ingest emptyDB [vRow, xRow]).1 [cRow]).1.store
         = (ingest emptyDB [vRow, xRow]).1.store)
    ∧ "id-dup" ∈ (data_validate ([vRow] ++ [{ vRow with id := "id-dup" }])).1 :=
  ⟨c2_store_conflict_handling.1 (ingest emptyDB [vRow, xRow]).1 [cRow],
   c2_store_conflict_handling.2 [vRow] [{ vRow with id := "id-dup" }]
     { vRow with id := "id-dup" } (by simp) (by simp [vRow])⟩

/-- C9: one request's validation and promotion range over the ENTIRE
staging table: the staging table after the request is the old table
plus the batch, and (unless the request failed on the store constraint
or skipped promotion because no ids were returned) the analytic store
gained the derived image of EVERY staging row — old batches included —
whose id is not in the invalid-id list of re-validating the whole
table.  Concretely, a second request consisting of one invalid row
promotes the row staged by the first request. -/
theorem c9_whole_table_frame :
    (∀ (db : DB) (batch : List StagingRow),
      (ingest db batch).1.staging = db.staging ++ batch
      ∧ ((data_validate (db.staging ++ batch)).1 = []
         ∨ (ingest db batch).2 = .error "Ingestion failed"
         ∨ (ingest db batch).1.store
             = db.store ++ ((db.staging ++ batch).filter
                 (fun r => r.id ∉ (data_validate (db.staging ++ batch)).1)).map
                   toAnalytic))
    ∧ (ingest (ingest emptyDB [vRow]).1 [cRow]).1.store = [toAnalytic vRow] := by
  constructor
  · intro db batch
    constructor
    · unfold ingest
      simp only
      split
      · rfl
      · split <;> rfl
    · unfold ingest
      simp only
      split
      · next hemp => exact Or.inl (List.isEmpty_iff.mp hemp)
      · split
        · next store1 heq =>
          exact Or.inr (Or.inr (insertUnique_eq_some heq))
        · exact Or.inr (Or.inl rfl)
  · simp +decide [ingest, data_validate, tableErrors, rowErrors, requiredErr,
      numErrs, insertUnique, toAnalytic, vRow, cRow, emptyDB]

/-- C5 counterexample: the store holds a "Bidco" row priced at exactly
90% of RRP (a surviving promo group for the lower-cased supplier), yet
querying for "BIDCO" — a case-insensitive match — returns the 204
no-data signal: the query lower-cases only the STORED supplier and
interpolates the request argument verbatim. -/
theorem c5_case_sensitive_filter :
    (promotion_report "BIDCO" none [pRowAn]).isOk = false
    ∧ ciContains pRowAn.supplier "BIDCO" = true := by
  exact ⟨by decide, by decide⟩

/-- C5 as amended: the promotion report signals 204 no-data exactly
when NO (description, section) group — over the rows whose
lower-cased stored supplier contains the request text verbatim and
whose `rrp` and `sale_price` are non-NULL — has both positive promo
units and positive baseline units; the request text itself is not
lower-cased, so the match is case-sensitive in the argument. -/
theorem c5_no_data_condition :
    ∀ (sup : String) (mu : Option ℚ) (store : List AnalyticRow),
      (promotion_report sup mu store).isOk = false
        ↔ ∀ k ∈ promoKeys sup store,
            ¬ promoHaving (promoGroupRows sup store k) := by
  intro sup mu store
  have hchar : promoResultKeys sup store = []
      ↔ ∀ k ∈ promoKeys sup store,
          ¬ promoHaving (promoGroupRows sup store k) := by
    unfold promoResultKeys
    rw [List.filter_eq_nil_iff]
    constructor
    · intro h k hk
      simpa using h k hk
    · intro h k hk
      simpa using h k hk
  unfold promotion_report
  simp only
  split
  · next hk => exact ⟨fun _ => hchar.mp hk, fun _ => rfl⟩
  · next hk =>
    exact ⟨fun hfalse => by simp [Except.isOk, Except.toBool] at hfalse,
           fun hall => absurd (hchar.mpr hall) hk⟩

/-- C6 counterexample: store "S" has 7 transactions, one of them a
zero sale (≈14.3%), no nulls, no negatives, and variance far below
(2 × mean)² — none of the claimed conditions holds — yet it appears in
`unreliable_stores`, because the store query's HAVING threshold for
zero sales is 10%, not the claimed 20%. -/
theorem c6_ten_pct_threshold :
    some "S" ∈ unreliableStores qStag
    ∧ ¬ specStoreUnreliable (storeRows qStag (some "S")) := by
  have hg : storeRows qStag (some "S") = qStag := by decide
  have hzero : qStag.countP zeroSale = 1 := by decide
  have hneg : qStag.countP negSale = 0 := by decide
  have hnull : qStag.countP nullSale = 0 := by decide
  have hlen : qStag.length = 7 := rfl
  have hprices : unitPrices qStag = [1, 1, 1, 1, 1, 1, 0] := by
    norm_num [unitPrices, qStag, qRowA, qRowZ, optDiv, List.filterMap_cons]
  have havg : avgQ (unitPrices qStag) = 6 / 7 := by
    rw [hprices]
    norm_num [avgQ]
  have hsvar : svarQ (unitPrices qStag) = 1 / 7 := by
    rw [hprices]
    norm_num [svarQ, avgQ]
  have hhav : storeHaving qStag := by
    left
    rw [hzero, hlen]
    norm_num
  constructor
  · have hm : some "S" ∈ (qStag.map (·.store_name)).dedup := by decide
    exact List.mem_filter.mpr ⟨hm, decide_eq_true (hg ▸ hhav)⟩
  · intro hspec
    unfold specStoreUnreliable at hspec
    rw [hg] at hspec
    rcases hspec with h | h | h | h
    · rw [hneg] at h
      exact lt_irrefl 0 h
    · rw [hnull, hlen] at h
      norm_num at h
    · rw [hzero, hlen] at h
      norm_num at h
    · obtain ⟨-, hd⟩ := h
      rcases hd with hd | ⟨-, hd⟩ <;> rw [havg] at hd
      · norm_num at hd
      · rw [hsvar] at hd
        norm_num at hd

/-- C6 as amended: a store name appears in `unreliable_stores` iff it
occurs in staging and its group satisfies the query's HAVING clause —
zero-sales count above 10% of its transactions, OR any negative
quantity/total_sales, OR sample volatility above twice the mean unit
price; null counts play no part in membership.  Consequently a store
with no zero sales, no negatives and low volatility never appears. -/
theorem c6_store_membership (staging : List StagingRow)
    (name : Option String) :
    (name ∈ unreliableStores staging
      ↔ name ∈ staging.map (·.store_name)
        ∧ storeHaving (storeRows staging name))
    ∧ ((storeRows staging name).countP zeroSale = 0 →
       (storeRows staging name).countP negSale = 0 →
       ¬ volatilityHigh (unitPrices (storeRows staging name)) →
       name ∉ unreliableStores staging) := by
  have hmem : name ∈ unreliableStores staging
      ↔ name ∈ staging.map (·.store_name)
        ∧ storeHaving (storeRows staging name) := by
    unfold unreliableStores
    rw [List.mem_filter, List.mem_dedup]
    simp
  refine ⟨hmem, fun hz hn hv hcon => ?_⟩
  obtain ⟨-, hhav⟩ := hmem.mp hcon
  unfold storeHaving at hhav
  rcases hhav with h | h | h
  · rw [hz] at h
    have h0 : (0:ℚ) ≤ ((storeRows staging name).length : ℚ) * (1 / 10) := by
      positivity
    simp only [Nat.cast_zero] at h
    linarith
  · rw [hn] at h
    exact lt_irrefl 0 h
  · exact hv h

/-- Witness for C6 at a clean single-transaction store. -/
theorem c6_store_membership_witness :
    some "T" ∉ unreliableStores cleanStag :=
  (c6_store_membership cleanStag (some "T")).2 (by decide) (by decide)
    (by decide)

